import Mathlib

/-!
Verification development for the Options-Roll-Monitor repository.

The Python sources (src/greeks_cache.py, src/market_data.py,
src/options_finder.py, src/roll_monitor_live.py) are shallowly embedded:

* Python `float`-or-`None` market values are modelled by `PFloat`
  (`none` for Python `None`, `nan` for float NaN, `val q` for a finite
  float, modelled as a rational).  Python comparisons on NaN are false,
  which the `PFloat` predicates reproduce.
* Timestamps and clock readings are explicit integer-second parameters
  (`now`), so `datetime.now()` becomes a value threaded by the caller
  (the TTLs involved are whole seconds).
* Calendar dates are absolute day numbers (`ℤ`); `dte(e)` from
  src/utils.py becomes `e - today`.
* The broker (ib_insync) calls are effect boundaries: each fetch
  function takes the value the broker would have produced as an
  explicit argument, and `find_roll_options` receives the broker
  responses in an `Env` record.
* Exact rational arithmetic stands in for IEEE doubles; the constants
  0.15, 1.05, ... are the corresponding rationals.
-/

/-- Python optional float: `none` models Python `None`, `nan` models float
NaN, `val q` a finite float value (as a rational). -/
inductive PFloat where
  | none : PFloat
  | nan : PFloat
  | val : ℚ → PFloat
  deriving DecidableEq, Repr

/-- Python test `x is None or (isinstance(x, float) and math.isnan(x))`
(and the equivalent `x is None or x != x` used at options_finder.py:404). -/
def PFloat.isInvalid : PFloat → Bool
  | .none => true
  | .nan => true
  | .val _ => false

/-- Python test `x is not None and x > 0` (false for NaN, since `NaN > 0`
is false in Python). -/
def PFloat.isPos : PFloat → Bool
  | .val q => decide (0 < q)
  | _ => false

/-- The rational carried by a `val`; 0 for `none`/`nan` (only used at
program points where validity has been established). -/
def PFloat.valOf : PFloat → ℚ
  | .val q => q
  | _ => 0

/-- The fields of an ib_insync `Ticker` read by `safe_mark`
(src/market_data.py:10). -/
structure Ticker where
  bid : PFloat
  ask : PFloat
  last : PFloat
  close : PFloat
  deriving DecidableEq, Repr

/-- The fall-through chain of `safe_mark` (src/market_data.py:33-42):
first of bid, ask, last, close that is non-None and strictly positive. -/
def safe_mark_fallback (tk : Ticker) : Option ℚ :=
  if tk.bid.isPos then some tk.bid.valOf
  else if tk.ask.isPos then some tk.ask.valOf
  else if tk.last.isPos then some tk.last.valOf
  else if tk.close.isPos then some tk.close.valOf
  else Option.none

/-- `safe_mark` (src/market_data.py:10-42): bid/ask midpoint when both are
non-None and `0 < bid <= ask` (a Python chained comparison, false when
either is NaN), else the positive fall-through chain. -/
def safe_mark (tk : Ticker) : Option ℚ :=
  match tk.bid, tk.ask with
  | .val b, .val a =>
      if 0 < b ∧ b ≤ a then some ((b + a) / 2) else safe_mark_fallback tk
  | _, _ => safe_mark_fallback tk

/-- The spec's wording of the mark-price rule (spec.md section 4.2 step 3),
written independently of the code: midpoint when both present and
`0 < bid ≤ ask`; otherwise the first of bid, ask, last trade, close that is
present and strictly positive; otherwise absent. -/
def spec_mark (tk : Ticker) : Option ℚ :=
  match tk.bid, tk.ask with
  | .val b, .val a =>
      if 0 < b ∧ b ≤ a then some ((b + a) / 2)
      else ([tk.bid, tk.ask, tk.last, tk.close].find? PFloat.isPos).map PFloat.valOf
  | _, _ => ([tk.bid, tk.ask, tk.last, tk.close].find? PFloat.isPos).map PFloat.valOf

/-- `GreeksCache` (src/greeks_cache.py:10-28): TTL, key-to-(data, timestamp)
map (an association list with the most recent binding first), and the four
statistics counters.  The payload type is a parameter. -/
structure GreeksCache (α : Type) where
  ttl_seconds : ℤ
  cache : List (String × α × ℤ)
  hits : ℕ
  misses : ℕ
  expired : ℕ
  total_requests : ℕ
  deriving DecidableEq, Repr

/-- `GreeksCache.__init__` (src/greeks_cache.py:13-28). -/
def GreeksCache.init (α : Type) (ttl_seconds : ℤ) : GreeksCache α :=
  ⟨ttl_seconds, [], 0, 0, 0, 0⟩

/-- Dictionary lookup `self.cache[key]`. -/
def GreeksCache.lookup {α : Type} (c : GreeksCache α) (key : String) :
    Option (α × ℤ) :=
  (c.cache.find? (fun e => e.1 == key)).map (fun e => e.2)

/-- `GreeksCache.get` (src/greeks_cache.py:34-67): bumps `total_requests`;
on absent key bumps `misses`; on a stored entry older than the TTL deletes
it and bumps `expired` (returning nothing); otherwise bumps `hits` and
returns the data.  `now` is the reading of `datetime.now()`. -/
def GreeksCache.get {α : Type} (c : GreeksCache α) (key : String) (now : ℤ) :
    Option α × GreeksCache α :=
  let c := { c with total_requests := c.total_requests + 1 }
  match c.lookup key with
  | Option.none => (Option.none, { c with misses := c.misses + 1 })
  | some (data, timestamp) =>
      if c.ttl_seconds < now - timestamp then
        (Option.none,
         { c with cache := c.cache.filter (fun e => !(e.1 == key)),
                  expired := c.expired + 1 })
      else
        (some data, { c with hits := c.hits + 1 })

/-- `GreeksCache.put` (src/greeks_cache.py:69-83): overwrites the binding
for `key` with `(data, now)`. -/
def GreeksCache.put {α : Type} (c : GreeksCache α) (key : String) (data : α)
    (now : ℤ) : GreeksCache α :=
  { c with cache := (key, data, now) :: c.cache.filter (fun e => !(e.1 == key)) }

/-- An option quote dictionary as assembled by `get_option_quote`
(src/market_data.py:115-126), restricted to the fields read downstream by
`find_roll_options`. -/
structure Quote where
  strike : ℚ
  mark : ℚ
  delta : Option ℚ
  dte : ℤ
  deriving DecidableEq, Repr

/-- A value stored in the shared cache: either an option-quote dictionary
or the `\x7b'price': p\x7d` dictionary stored by `get_stock_price`. -/
inductive CacheData where
  | quote : Quote → CacheData
  | stockPrice : ℚ → CacheData
  deriving DecidableEq, Repr

/-- Python `cached.get('price')` on a cached dictionary. -/
def CacheData.priceField : CacheData → Option ℚ
  | .stockPrice p => some p
  | .quote _ => Option.none

/-- `GreeksCache._make_key` (src/greeks_cache.py:30-32). -/
def make_key (symbol expiry : String) (strike : ℚ) (right : String) : String :=
  symbol ++ "_" ++ expiry ++ "_" ++ toString strike ++ "_" ++ right

/-- `get_cache` (src/greeks_cache.py:134-147): the module-level singleton.
`g` is the current `_global_cache`; the TTL argument is used only when the
singleton does not yet exist. -/
def get_cache (g : Option (GreeksCache CacheData)) (ttl_seconds : ℤ) :
    GreeksCache CacheData :=
  match g with
  | Option.none => GreeksCache.init CacheData ttl_seconds
  | some c => c

/-- The cache-facing behaviour of `get_option_quote`
(src/market_data.py:73-145): consult the singleton with `cache_ttl=60`,
return a hit immediately, otherwise store and return whatever the broker
produced (`fetched`, `Option.none` when every venue failed).  Returns the
produced dictionary and the updated `_global_cache`. -/
def get_option_quote_cached (g : Option (GreeksCache CacheData))
    (symbol expiry : String) (strike : ℚ) (right : String) (now : ℤ)
    (fetched : Option Quote) : Option CacheData × Option (GreeksCache CacheData) :=
  let c := get_cache g 60
  let key := make_key symbol expiry strike right
  match c.get key now with
  | (some d, c') => (some d, some c')
  | (Option.none, c') =>
      match fetched with
      | some q => (some (CacheData.quote q), some (c'.put key (CacheData.quote q) now))
      | Option.none => (Option.none, some c')

/-- The cache-facing behaviour of `get_stock_price`
(src/market_data.py:148-217): consult the singleton with `cache_ttl=30`
under the sentinel key, return `cached.get('price')` on a hit, otherwise
store and return the broker's price (when one was accepted). -/
def get_stock_price_cached (g : Option (GreeksCache CacheData))
    (symbol : String) (now : ℤ) (fetched : Option ℚ) :
    Option ℚ × Option (GreeksCache CacheData) :=
  let c := get_cache g 30
  let key := make_key symbol "STOCK" 0 "STOCK"
  match c.get key now with
  | (some d, c') => (d.priceField, some c')
  | (Option.none, c') =>
      match fetched with
      | some p => (some p, some (c'.put key (CacheData.stockPrice p) now))
      | Option.none => (Option.none, some c')

/-- Argument-minimising selection mirroring Python
`min(candidates, key=lambda e: abs((e - target).days))`: the fold keeps the
earlier element on ties, exactly as Python `min` does. -/
def select_min_by_distance (target : ℤ) : List ℤ → Option ℤ
  | [] => Option.none
  | e :: es =>
      some (es.foldl (fun b x => if |x - target| < |b - target| then x else b) e)

/-- The selection logic of `get_next_weekly_expiry`
(src/options_finder.py:78-115) for one exchange's expiry set: dates are
absolute day numbers, `dte e = e - today`, the target is
`current_expiry + 7`; candidates must have 30 <= dte <= 60 and lie on or
after the target; the candidate closest to the target wins. -/
def get_next_weekly_expiry (expiries : List ℤ) (today current_expiry : ℤ) :
    Option ℤ :=
  let target := current_expiry + 7
  let candidates := expiries.filter
    (fun e => 30 ≤ e - today ∧ e - today ≤ 60 ∧ target ≤ e)
  select_min_by_distance target candidates

/-- The universe safety check of `find_strikes_by_delta`
(src/options_finder.py:216-221): with more than 200 strikes and a truthy
current strike, keep only strikes within 30 percent of the current strike. -/
def reduce_universe (strikes : List ℚ) (current_strike : ℚ) : List ℚ :=
  if 200 < strikes.length then
    if current_strike ≠ 0 then
      strikes.filter
        (fun k => current_strike * (7/10) ≤ k ∧ k ≤ current_strike * (13/10))
    else strikes
  else strikes

/-- Band selection of `find_strikes_by_delta` (src/options_finder.py:227-251),
given a known spot price. -/
def select_band (strikes : List ℚ) (spot : ℚ) (right : Char)
    (target_delta : ℚ) : List ℚ :=
  if right = 'C' then
    if target_delta < 15/100 then
      strikes.filter (fun k => spot * (105/100) ≤ k ∧ k ≤ spot * (115/100))
    else
      strikes.filter (fun k => spot - 50 ≤ k ∧ k ≤ spot + 150)
  else
    if target_delta < -(85/100) then
      strikes.filter (fun k => spot * (85/100) ≤ k ∧ k ≤ spot * (95/100))
    else
      strikes.filter (fun k => spot - 150 ≤ k ∧ k ≤ spot + 50)

/-- Strike sampling of `find_strikes_by_delta` (src/options_finder.py:253-265):
with a spot price, the whole band when it has at most 10 strikes, otherwise
10 evenly strided samples `band[int(i * (len(band) / 10))]`, written with
exact arithmetic as index `i * band.length / 10`; without a spot price, the
first 20 strikes of the universe. -/
def sample_strikes (strikes : List ℚ) (spot : Option ℚ) (right : Char)
    (target_delta : ℚ) : List ℚ :=
  match spot with
  | some s =>
      let band := select_band strikes s right target_delta
      if band.length ≤ 10 then band
      else (List.range 10).map (fun i => band.getD (i * band.length / 10) 0)
  | Option.none => strikes.take 20

/-- Category label of a candidate (src/options_finder.py:449-462). -/
inductive RollType where
  | sameStrike : RollType
  | rollUp : ℚ → RollType
  | rollDown : ℚ → RollType
  deriving DecidableEq, Repr

/-- Categorisation of a delta-sampled candidate against the current strike
(src/options_finder.py:449-462). -/
def categorize (right : Char) (current_strike strike : ℚ) : RollType :=
  if |strike - current_strike| < 1 then RollType.sameStrike
  else if right = 'C' then
    if current_strike < strike then RollType.rollUp (strike - current_strike)
    else RollType.rollDown (current_strike - strike)
  else
    if strike < current_strike then RollType.rollDown (current_strike - strike)
    else RollType.rollUp (strike - current_strike)

/-- One scored roll candidate, the dictionary appended at
src/options_finder.py:431-439 and 484-492. -/
structure ScoredOption where
  type : RollType
  data : Quote
  net_credit : ℚ
  net_delta : Option ℚ
  premium_efficiency : ℚ
  capital_roi : ℚ
  annualized_roi : ℚ
  deriving DecidableEq, Repr

/-- The scoring formulas of `find_roll_options`
(src/options_finder.py:412-427 and 464-478).  The premium-efficiency guard
is Python `mark and mark > 0`, hence the extra nonzero conjunct. -/
def score_candidate (buyback_cost current_strike : ℚ)
    (current_delta : Option ℚ) (t : RollType) (q : Quote) : ScoredOption :=
  let net_credit := q.mark - buyback_cost
  let net_delta := match current_delta, q.delta with
    | some cd, some d => some (d - cd)
    | _, _ => Option.none
  let premium_efficiency :=
    if q.mark ≠ 0 ∧ 0 < q.mark then net_credit / q.mark * 100 else 0
  let capital_roi :=
    if 0 < current_strike then net_credit / current_strike * 100 else 0
  let annualized_roi :=
    if 0 < q.dte then capital_roi * (365 / (q.dte : ℚ)) else 0
  ⟨t, q, net_credit, net_delta, premium_efficiency, capital_roi, annualized_roi⟩

/-- The body of the delta-candidate loop (src/options_finder.py:445-492):
skip the quote when its strike is within 1.0 of an already-added candidate,
otherwise append it when its net credit is positive. -/
def add_delta_option (current_strike : ℚ) (current_delta : Option ℚ)
    (right : Char) (buyback_cost : ℚ) (options : List ScoredOption)
    (opt : Quote) : List ScoredOption :=
  let opt_type := categorize right current_strike opt.strike
  let net_credit := opt.mark - buyback_cost
  if options.any (fun o => |o.data.strike - opt.strike| < 1) then options
  else if 0 < net_credit then
    options ++ [score_candidate buyback_cost current_strike current_delta opt_type opt]
  else options

/-- Candidate-list construction of `find_roll_options`
(src/options_finder.py:401-492): the same-strike quote first (kept when its
net credit is positive), then the delta-sampled quotes through
`add_delta_option`. -/
def build_options (same_strike : Option Quote) (delta_options : List Quote)
    (buyback_cost current_strike : ℚ) (current_delta : Option ℚ)
    (right : Char) : List ScoredOption :=
  let initial : List ScoredOption :=
    match same_strike with
    | Option.none => []
    | some q =>
        if 0 < q.mark - buyback_cost then
          [score_candidate buyback_cost current_strike current_delta
            RollType.sameStrike q]
        else []
  delta_options.foldl
    (add_delta_option current_strike current_delta right buyback_cost) initial

/-- A position dictionary (src/portfolio.py / options_finder.py:328-334).
`expiry` is an absolute day number. -/
structure Position where
  symbol : String
  strike : ℚ
  expiry : ℤ
  current_mark : PFloat
  entry_credit : ℚ
  current_delta : Option ℚ
  right : Char
  contracts : ℤ
  deriving DecidableEq, Repr

/-- The configuration keys read by `find_roll_options`
(src/options_finder.py:339-348). -/
structure Config where
  target_delta_call : ℚ
  target_delta_put : ℚ
  dte_threshold_for_alert : ℤ
  deriving DecidableEq, Repr

/-- The broker responses consumed by one `find_roll_options` run: the
current date, the `get_stock_price` result, the `get_next_weekly_expiry`
result, the same-strike `get_option_quote` result and the
`find_strikes_by_delta` results. -/
structure Env where
  today : ℤ
  spot : PFloat
  next_expiry : Option ℤ
  same_strike_quote : Option Quote
  delta_quotes : List Quote
  deriving DecidableEq, Repr

/-- Tag of the error dictionaries returned by `find_roll_options`
(src/options_finder.py:355-372 and 391-399). -/
inductive ErrKind where
  | skip_expiring : ErrKind
  | missing_data : ErrKind
  | no_expiry : ErrKind
  deriving DecidableEq, Repr

/-- The success dictionary returned by `find_roll_options`
(src/options_finder.py:497-510). -/
structure RollOk where
  symbol : String
  spot : Option ℚ
  current_strike : ℚ
  current_expiry : ℤ
  current_dte : ℤ
  current_delta : Option ℚ
  buyback_cost : ℚ
  entry_credit : ℚ
  current_pnl : ℚ
  contracts : ℤ
  right : Char
  options : List ScoredOption
  deriving DecidableEq, Repr

/-- Return value of `find_roll_options`: `absent` is the Python `None`
returned both at the DTE gate (src/options_finder.py:348-349) and when no
candidate survives (src/options_finder.py:494-495); `err` carries the error
dictionary's tag and DTE; `ok` the success dictionary. -/
inductive RollResult where
  | absent : RollResult
  | err : ErrKind → ℤ → RollResult
  | ok : RollOk → RollResult
  deriving DecidableEq, Repr

/-- `find_roll_options` (src/options_finder.py:309-510) over explicit broker
responses: DTE gate, data-quality gate, spot normalisation, expiry check,
the redundant second buyback validity check (options_finder.py:403-405),
candidate construction and result assembly. -/
def find_roll_options (pos : Position) (config : Config) (env : Env) :
    RollResult :=
  let current_dte := pos.expiry - env.today
  if config.dte_threshold_for_alert < current_dte then RollResult.absent
  else if pos.current_mark.isInvalid then
    if current_dte ≤ 2 then RollResult.err ErrKind.skip_expiring current_dte
    else RollResult.err ErrKind.missing_data current_dte
  else
    let buyback_cost := pos.current_mark
    let current_pnl := pos.entry_credit - buyback_cost.valOf
    let spot : Option ℚ :=
      if env.spot.isInvalid then Option.none else some env.spot.valOf
    match env.next_expiry with
    | Option.none => RollResult.err ErrKind.no_expiry current_dte
    | some _ =>
        let buyback : ℚ := if buyback_cost.isInvalid then 0 else buyback_cost.valOf
        let options := build_options env.same_strike_quote env.delta_quotes
          buyback pos.strike pos.current_delta pos.right
        if options = [] then RollResult.absent
        else RollResult.ok
          ⟨pos.symbol, spot, pos.strike, pos.expiry, current_dte,
           pos.current_delta, buyback, pos.entry_credit, current_pnl,
           pos.contracts, pos.right, options⟩

/-- Classification labels produced by `process_position`
(src/roll_monitor_live.py:95-111). -/
inductive ProcKind where
  | options_found : ProcKind
  | skip_expiring : ProcKind
  | error : ProcKind
  | not_ready : ProcKind
  | no_options : ProcKind
  deriving DecidableEq, Repr

/-- `process_position` classification (src/roll_monitor_live.py:88-111): a
falsy result is split by re-computing the DTE against the alert threshold
(`not_ready` above it, `no_options` at or below it); error dictionaries map
to `skip_expiring` or `error`; success to `options_found`. -/
def process_position (pos : Position) (config : Config) (env : Env) :
    ProcKind × Option RollOk :=
  match find_roll_options pos config env with
  | RollResult.absent =>
      if config.dte_threshold_for_alert < pos.expiry - env.today then
        (ProcKind.not_ready, Option.none)
      else (ProcKind.no_options, Option.none)
  | RollResult.err k _ =>
      if k = ErrKind.skip_expiring then (ProcKind.skip_expiring, Option.none)
      else (ProcKind.error, Option.none)
  | RollResult.ok r => (ProcKind.options_found, some r)

/-- A concrete option quote used by the concrete-instance theorems: the
spec.md section 8 end-to-end scenario's replacement quote (strike 100,
mark 6.00, delta 0.08, 35 DTE). -/
def exQuote : Quote := ⟨100, 6, some (8/100), 35⟩

/-- The spec.md section 8 end-to-end position: strike 100, expiry 14 days
out, current mark 2.00, entry credit 4.00, delta 0.04, one call contract. -/
def exPos : Position := ⟨"XYZ", 100, 14, PFloat.val 2, 4, some (4/100), 'C', 1⟩

/-- Configuration with the default deltas and a 45-day alert threshold. -/
def exConfig : Config := ⟨1/10, -(9/10), 45⟩

/-- Broker responses for the end-to-end scenario: today is day 0, spot 390,
replacement expiry at day 35, the same-strike quote `exQuote`, and no
delta-sampled quotes. -/
def exEnv : Env := ⟨0, PFloat.val 390, some 35, some exQuote, []⟩

/-- The scored candidate the scenario produces. -/
def exScored : ScoredOption :=
  score_candidate 2 100 (some (4/100)) RollType.sameStrike exQuote

/-- The success dictionary the scenario produces. -/
def exOk : RollOk :=
  ⟨"XYZ", some 390, 100, 14, 14, some (4/100), 2, 4, 2, 1, 'C', [exScored]⟩

/-- A position whose mark is NaN with DTE 1 (spec.md section 8). -/
def exPosNan1 : Position := ⟨"ABC", 50, 1, PFloat.nan, 1, Option.none, 'C', 1⟩

/-- A position whose mark is NaN with DTE 10 (spec.md section 8). -/
def exPosNan10 : Position := ⟨"ABC", 50, 10, PFloat.nan, 1, Option.none, 'C', 1⟩

/-- Broker responses where nothing is available. -/
def exEnvEmpty : Env := ⟨0, PFloat.none, Option.none, Option.none, []⟩

/-- An eligible position (DTE 14, valid mark). -/
def exPosEligible : Position :=
  ⟨"XYZ", 100, 14, PFloat.val 2, 4, Option.none, 'C', 1⟩

/-- The same position far from expiry (DTE 60, above the 45-day threshold). -/
def exPosFar : Position := { exPosEligible with expiry := 60 }

/-- Broker responses with a replacement expiry but no quotes at all, so the
candidate set comes out empty. -/
def exEnvNoCand : Env := ⟨0, PFloat.none, some 35, Option.none, []⟩

/-- A one-entry cache holding key "k" stored at time 0 under a 60-second
TTL, with nonzero statistics counters. -/
def exCache : GreeksCache ℚ := ⟨60, [("k", 1, 0)], 3, 2, 4, 9⟩

/-- Quotes within one strike unit of each other never coexist in a
candidate list: the property `find_roll_options` maintains via the
duplicate skip at src/options_finder.py:481. -/
def StrikeApart (a b : ScoredOption) : Prop :=
  1 ≤ |a.data.strike - b.data.strike|

lemma safe_mark_fallback_eq (tk : Ticker) :
    safe_mark_fallback tk =
      ([tk.bid, tk.ask, tk.last, tk.close].find? PFloat.isPos).map PFloat.valOf := by
  unfold safe_mark_fallback
  by_cases h1 : tk.bid.isPos <;> by_cases h2 : tk.ask.isPos <;>
    by_cases h3 : tk.last.isPos <;> by_cases h4 : tk.close.isPos <;>
      simp [List.find?, h1, h2, h3, h4]

/-- C9: for every ticker snapshot, the derived mark price equals the
bid/ask midpoint when both are present and 0 < bid <= ask; otherwise it
equals the first of bid, ask, last trade, close that is present and
strictly positive; otherwise it is absent.  Stated as equality between the
code's `safe_mark` and the spec-worded `spec_mark`. -/
theorem C9_safe_mark_matches_spec (tk : Ticker) : safe_mark tk = spec_mark tk := by
  obtain ⟨bid, ask, last, close⟩ := tk
  cases bid <;> cases ask <;>
    simp [safe_mark, spec_mark, safe_mark_fallback_eq]

lemma GreeksCache.lookup_bump {α : Type} (c : GreeksCache α) (n : ℕ) (key : String) :
    ({ c with total_requests := n } : GreeksCache α).lookup key = c.lookup key := rfl

lemma find?_filter_ne {α : Type} (l : List (String × α × ℤ)) (key : String) :
    (l.filter (fun e => !(e.1 == key))).find? (fun e => e.1 == key) = Option.none := by
  rw [List.find?_eq_none]
  intro x hx
  have hmem := List.mem_filter.mp hx
  simpa using hmem.2

/-- C8: a cache get whose stored entry's age exceeds the TTL never returns
the entry: the entry is evicted, `expired` is incremented, `hits` and
`misses` are unchanged, and the call returns nothing; and every value the
cache does return was stored at most TTL seconds before `now`. -/
theorem C8_stale_entries_never_returned (α : Type) (c : GreeksCache α)
    (key : String) (now : ℤ) :
    (∀ data ts, c.lookup key = some (data, ts) → c.ttl_seconds < now - ts →
        (c.get key now).1 = Option.none ∧
        ((c.get key now).2).lookup key = Option.none ∧
        ((c.get key now).2).expired = c.expired + 1 ∧
        ((c.get key now).2).hits = c.hits ∧
        ((c.get key now).2).misses = c.misses) ∧
    (∀ d, (c.get key now).1 = some d →
        ∃ ts, c.lookup key = some (d, ts) ∧ now - ts ≤ c.ttl_seconds) := by
  constructor
  · intro data ts hl ht
    have hb : Option.map (fun e => e.2)
        (List.find? (fun e => e.1 == key) c.cache) = some (data, ts) := hl
    refine ⟨?_, ?_, ?_, ?_, ?_⟩ <;>
      simp [GreeksCache.get, GreeksCache.lookup, hb, ht, find?_filter_ne]
  · intro d hd
    rcases hl : c.lookup key with _ | ⟨data, ts⟩
    · have hb : ({ c with total_requests := c.total_requests + 1 } :
          GreeksCache α).lookup key = Option.none := by
        rw [GreeksCache.lookup_bump]; exact hl
      simp [GreeksCache.get, hb] at hd
    · have hb : ({ c with total_requests := c.total_requests + 1 } :
          GreeksCache α).lookup key = some (data, ts) := by
        rw [GreeksCache.lookup_bump]; exact hl
      by_cases ht : c.ttl_seconds < now - ts
      · simp [GreeksCache.get, hb, ht] at hd
      · simp [GreeksCache.get, hb, ht] at hd
        subst hd
        exact ⟨ts, rfl, not_lt.mp ht⟩

/-- Witness for C8 at a concrete cache: key "k" stored at time 0, TTL 60,
read at time 100. -/
theorem C8_stale_entries_never_returned_witness :
    (exCache.get "k" 100).1 = Option.none ∧
    ((exCache.get "k" 100).2).lookup "k" = Option.none ∧
    ((exCache.get "k" 100).2).expired = exCache.expired + 1 ∧
    ((exCache.get "k" 100).2).hits = exCache.hits ∧
    ((exCache.get "k" 100).2).misses = exCache.misses :=
  (C8_stale_entries_never_returned ℚ exCache "k" 100).1 1 0 (by decide) (by decide)

lemma GreeksCache.get_ttl {α : Type} (c : GreeksCache α) (key : String) (now : ℤ) :
    ((c.get key now).2).ttl_seconds = c.ttl_seconds := by
  simp only [GreeksCache.get]
  split
  · rfl
  · split <;> rfl

lemma option_fetch_ttl (g : Option (GreeksCache CacheData)) (symbol expiry : String)
    (strike : ℚ) (right : String) (now : ℤ) (fetched : Option Quote) :
    ((get_option_quote_cached g symbol expiry strike right now fetched).2).map
        GreeksCache.ttl_seconds = some ((get_cache g 60).ttl_seconds) := by
  unfold get_option_quote_cached
  rcases h : (get_cache g 60).get (make_key symbol expiry strike right) now with ⟨res, c'⟩
  have hc' : c'.ttl_seconds = (get_cache g 60).ttl_seconds := by
    have := GreeksCache.get_ttl (get_cache g 60) (make_key symbol expiry strike right) now
    rw [h] at this; exact this
  cases res with
  | none =>
      cases fetched with
      | none => simp [h, hc']
      | some q => simp [h, GreeksCache.put, hc']
  | some d => simp [h, hc']

lemma stock_fetch_ttl (g : Option (GreeksCache CacheData)) (symbol : String)
    (now : ℤ) (fetched : Option ℚ) :
    ((get_stock_price_cached g symbol now fetched).2).map GreeksCache.ttl_seconds
      = some ((get_cache g 30).ttl_seconds) := by
  unfold get_stock_price_cached
  rcases h : (get_cache g 30).get (make_key symbol "STOCK" 0 "STOCK") now with ⟨res, c'⟩
  have hc' : c'.ttl_seconds = (get_cache g 30).ttl_seconds := by
    have := GreeksCache.get_ttl (get_cache g 30) (make_key symbol "STOCK" 0 "STOCK") now
    rw [h] at this; exact this
  cases res with
  | none =>
      cases fetched with
      | none => simp [h, hc']
      | some p => simp [h, GreeksCache.put, hc']
  | some d => simp [h, hc']

/-- C3 counterexample: option quotes and stock prices do NOT live under
distinct per-kind TTLs.  `get_cache`'s TTL argument only matters on the
first call, so after an option quote is fetched first (creating the
singleton with TTL 60), a stock-price entry aged 40 seconds — which under
the claimed 30-second stock TTL would have expired — is still returned. -/
theorem C3_distinct_ttl_counterexample :
    (get_stock_price_cached
        (get_stock_price_cached
            (get_option_quote_cached Option.none "SPY" "20260116" 100 "C" 0
              (some exQuote)).2
            "SPY" 0 (some 5)).2
        "SPY" 40 Option.none).1 = some 5 ∧ (30 : ℤ) < 40 - 0 := by
  constructor
  · decide
  · decide

/-- C3 amended: option-quote and stock-price fetches share the one global
cache; the TTL arguments (60 for option fetches, 30 for stock fetches) take
effect only when the fetch is the one that creates the singleton, and every
later fetch of either kind runs under whatever TTL the singleton already
has. -/
theorem C3_shared_singleton_ttl (g : Option (GreeksCache CacheData))
    (symbol expiry : String) (strike : ℚ) (right : String) (now : ℤ)
    (fq : Option Quote) (sp : Option ℚ) :
    ((get_option_quote_cached g symbol expiry strike right now fq).2).map
        GreeksCache.ttl_seconds
      = some (match g with | Option.none => 60 | some c => c.ttl_seconds) ∧
    ((get_stock_price_cached g symbol now sp).2).map GreeksCache.ttl_seconds
      = some (match g with | Option.none => 30 | some c => c.ttl_seconds) := by
  refine ⟨?_, ?_⟩
  · rw [option_fetch_ttl]
    cases g <;> simp [get_cache, GreeksCache.init]
  · rw [stock_fetch_ttl]
    cases g <;> simp [get_cache, GreeksCache.init]

lemma select_fold_mem (target : ℤ) (l : List ℤ) :
    ∀ b : ℤ,
      l.foldl (fun acc x => if |x - target| < |acc - target| then x else acc) b
        ∈ b :: l := by
  induction l with
  | nil => intro b; simp
  | cons x xs ih =>
      intro b
      simp only [List.foldl_cons]
      rcases List.mem_cons.mp (ih (if |x - target| < |b - target| then x else b)) with
        h1 | h1
      · rw [h1]
        by_cases hc : |x - target| < |b - target| <;> simp [hc]
      · exact List.mem_cons_of_mem _ (List.mem_cons_of_mem _ h1)

lemma select_fold_min (target : ℤ) (l : List ℤ) :
    ∀ b y : ℤ, y ∈ b :: l →
      |(l.foldl (fun acc x => if |x - target| < |acc - target| then x else acc) b)
        - target| ≤ |y - target| := by
  induction l with
  | nil =>
      intro b y hy
      simp only [List.foldl_nil]
      rcases List.mem_cons.mp hy with rfl | hy'
      · exact le_refl _
      · exact absurd hy' (List.not_mem_nil y)
  | cons x xs ih =>
      intro b y hy
      simp only [List.foldl_cons]
      have hb1 : |(if |x - target| < |b - target| then x else b) - target|
          ≤ |b - target| := by
        by_cases hc : |x - target| < |b - target| <;> simp [hc]
        exact le_of_lt hc
      have hb2 : |(if |x - target| < |b - target| then x else b) - target|
          ≤ |x - target| := by
        by_cases hc : |x - target| < |b - target| <;> simp [hc]
        exact not_lt.mp hc
      have hself := ih (if |x - target| < |b - target| then x else b)
        (if |x - target| < |b - target| then x else b) (List.mem_cons_self _ _)
      rcases List.mem_cons.mp hy with rfl | hy'
      · exact le_trans hself hb1
      · rcases List.mem_cons.mp hy' with rfl | hy''
        · exact le_trans hself hb2
        · exact ih _ y (List.mem_cons_of_mem _ hy'')

/-- C5: for every set of available expirations, the selected expiry lies in
the candidate set (window 30..60 DTE and date at or after
current_expiry + 7) and minimises the absolute day-distance to
current_expiry + 7 over that set; the selector returns nothing exactly when
the candidate set is empty. -/
theorem C5_expiry_selection (expiries : List ℤ) (today current_expiry : ℤ) :
    (∀ e, get_next_weekly_expiry expiries today current_expiry = some e →
        e ∈ expiries.filter
            (fun x => 30 ≤ x - today ∧ x - today ≤ 60 ∧ current_expiry + 7 ≤ x) ∧
        ∀ x ∈ expiries.filter
            (fun x => 30 ≤ x - today ∧ x - today ≤ 60 ∧ current_expiry + 7 ≤ x),
          |e - (current_expiry + 7)| ≤ |x - (current_expiry + 7)|) ∧
    (get_next_weekly_expiry expiries today current_expiry = Option.none ↔
        expiries.filter
            (fun x => 30 ≤ x - today ∧ x - today ≤ 60 ∧ current_expiry + 7 ≤ x)
          = []) := by
  simp only [get_next_weekly_expiry]
  rcases hC : expiries.filter
      (fun x => 30 ≤ x - today ∧ x - today ≤ 60 ∧ current_expiry + 7 ≤ x) with
    _ | ⟨a, as⟩
  · refine ⟨?_, ?_⟩
    · intro e he
      simp [select_min_by_distance] at he
    · simp [select_min_by_distance]
  · refine ⟨?_, ?_⟩
    · intro e he
      simp only [select_min_by_distance, Option.some.injEq] at he
      subst he
      constructor
      · exact select_fold_mem (current_expiry + 7) as a
      · intro x hx
        exact select_fold_min (current_expiry + 7) as a x hx
    · simp [select_min_by_distance]

/-- Witness for C5 at the spec.md section 8 scenario: expirations at days
20, 35, 40, 58, 70, today day 0, current expiry day 14; the selector
returns the day-35 expiration, which is a candidate and at least as close
to day 21 as the candidate at day 58. -/
theorem C5_expiry_selection_witness :
    get_next_weekly_expiry [20, 35, 40, 58, 70] 0 14 = some 35 ∧
    (35 : ℤ) ∈ ([20, 35, 40, 58, 70] : List ℤ).filter
        (fun x => 30 ≤ x - 0 ∧ x - 0 ≤ 60 ∧ 14 + 7 ≤ x) ∧
    |(35 : ℤ) - (14 + 7)| ≤ |(58 : ℤ) - (14 + 7)| :=
  ⟨by decide,
   ((C5_expiry_selection [20, 35, 40, 58, 70] 0 14).1 35 (by decide)).1,
   ((C5_expiry_selection [20, 35, 40, 58, 70] 0 14).1 35 (by decide)).2 58 (by decide)⟩

/-- C6: in the strike sampler, for calls with target delta below 0.15 and a
known spot, the band is exactly the strikes within [spot x 1.05,
spot x 1.15]; a band of at most 10 strikes is sampled whole; a larger band
is sampled at exactly 10 strikes with even stride band-length / 10; and
without a spot price the sample is the first 20 strikes of the universe. -/
theorem C6_strike_sampling (strikes : List ℚ) (s target_delta : ℚ)
    (h : target_delta < 15/100) :
    (∀ k, k ∈ select_band strikes s 'C' target_delta ↔
        k ∈ strikes ∧ s * (105/100) ≤ k ∧ k ≤ s * (115/100)) ∧
    ((select_band strikes s 'C' target_delta).length ≤ 10 →
        sample_strikes strikes (some s) 'C' target_delta =
          select_band strikes s 'C' target_delta) ∧
    (10 < (select_band strikes s 'C' target_delta).length →
        (sample_strikes strikes (some s) 'C' target_delta).length = 10 ∧
        ∀ i : ℕ, i < 10 →
          (sample_strikes strikes (some s) 'C' target_delta).getD i 0 =
            (select_band strikes s 'C' target_delta).getD
              (i * (select_band strikes s 'C' target_delta).length / 10) 0) ∧
    sample_strikes strikes Option.none 'C' target_delta = strikes.take 20 := by
  refine ⟨?_, ?_, ?_, rfl⟩
  · intro k
    simp [select_band, h, List.mem_filter, and_assoc]
  · intro hle
    simp [sample_strikes, hle]
  · intro hgt
    constructor
    · simp [sample_strikes, not_le.mpr hgt]
    · intro i hi
      simp only [sample_strikes, not_le.mpr hgt, if_neg, ite_false]
      rw [List.getD_eq_getElem?_getD, List.getElem?_map, List.getElem?_range hi]
      rfl

/-- Witness for C6: with spot 100 and target delta 0.10, strike 106 is in
the band exactly when it is a universe strike within [105, 115]; a
two-strike band is sampled whole; an eleven-strike band is sampled at
exactly 10 strikes; without a spot the sample is the first 20 universe
strikes. -/
theorem C6_strike_sampling_witness :
    ((106 : ℚ) ∈ select_band [100, 106, 110, 120] 100 'C' (1/10) ↔
        (106 : ℚ) ∈ ([100, 106, 110, 120] : List ℚ) ∧
          (100 : ℚ) * (105/100) ≤ 106 ∧ (106 : ℚ) ≤ 100 * (115/100)) ∧
    sample_strikes [100, 106, 110, 120] (some 100) 'C' (1/10) =
      select_band [100, 106, 110, 120] 100 'C' (1/10) ∧
    (sample_strikes [105, 106, 107, 108, 109, 110, 111, 112, 113, 114, 115]
        (some 100) 'C' (1/10)).length = 10 ∧
    sample_strikes [100, 106, 110, 120] Option.none 'C' (1/10) =
      ([100, 106, 110, 120] : List ℚ).take 20 :=
  ⟨(C6_strike_sampling [100, 106, 110, 120] 100 (1/10) (by norm_num)).1 106,
   (C6_strike_sampling [100, 106, 110, 120] 100 (1/10) (by norm_num)).2.1
     (by norm_num [select_band, List.filter_cons]),
   ((C6_strike_sampling [105, 106, 107, 108, 109, 110, 111, 112, 113, 114, 115]
       100 (1/10) (by norm_num)).2.2.1
     (by norm_num [select_band, List.filter_cons])).1,
   (C6_strike_sampling [100, 106, 110, 120] 100 (1/10) (by norm_num)).2.2.2⟩

lemma find_roll_options_ok {pos : Position} {config : Config} {env : Env}
    {r : RollOk} (h : find_roll_options pos config env = RollResult.ok r) :
    pos.current_mark.isInvalid = false ∧
    r.buyback_cost = pos.current_mark.valOf ∧
    r.current_strike = pos.strike ∧
    r.options = build_options env.same_strike_quote env.delta_quotes
      pos.current_mark.valOf pos.strike pos.current_delta pos.right := by
  by_cases h1 : config.dte_threshold_for_alert < pos.expiry - env.today
  · simp [find_roll_options, h1] at h
  · by_cases h2 : pos.current_mark.isInvalid = true
    · simp only [find_roll_options, if_neg h1, h2, if_true] at h
      split at h <;> simp at h
    · rcases hne : env.next_expiry with _ | nx
      · simp [find_roll_options, h1, h2, hne] at h
      · have hm : pos.current_mark.isInvalid = false := by
          simpa using h2
        simp only [find_roll_options, if_neg h1, hm, Bool.false_eq_true,
          if_false, hne] at h
        split at h
        · simp at h
        · rw [RollResult.ok.injEq] at h
          subst h
          exact ⟨hm, rfl, rfl, rfl⟩

lemma add_delta_option_cases (cs : ℚ) (cd : Option ℚ) (rt : Char) (b : ℚ)
    (acc : List ScoredOption) (q : Quote) :
    add_delta_option cs cd rt b acc q = acc ∨
    (add_delta_option cs cd rt b acc q =
        acc ++ [score_candidate b cs cd (categorize rt cs q.strike) q] ∧
      (∀ o ∈ acc, 1 ≤ |o.data.strike - q.strike|) ∧ 0 < q.mark - b) := by
  by_cases hdup : acc.any (fun o => |o.data.strike - q.strike| < 1)
  · refine Or.inl ?_
    simp only [add_delta_option]
    rw [if_pos hdup]
  · by_cases hnc : 0 < q.mark - b
    · refine Or.inr ⟨?_, ?_, hnc⟩
      · simp only [add_delta_option]
        rw [if_neg hdup, if_pos hnc]
      · intro o hoacc
        by_contra hlt
        push_neg at hlt
        exact hdup (by
          rw [List.any_eq_true]
          exact ⟨o, hoacc, by simpa using hlt⟩)
    · refine Or.inl ?_
      simp only [add_delta_option]
      rw [if_neg hdup, if_neg hnc]

lemma build_fold_mem {cs : ℚ} {cd : Option ℚ} {rt : Char} {b : ℚ} :
    ∀ (l : List Quote) (acc : List ScoredOption) (o : ScoredOption),
      o ∈ l.foldl (add_delta_option cs cd rt b) acc →
      o ∈ acc ∨ ∃ t q, o = score_candidate b cs cd t q := by
  intro l
  induction l with
  | nil => intro acc o h; exact Or.inl h
  | cons x xs ih =>
      intro acc o h
      rcases ih _ o h with h' | h'
      · rcases add_delta_option_cases cs cd rt b acc x with heq | ⟨heq, _, _⟩
        · rw [heq] at h'
          exact Or.inl h'
        · rw [heq] at h'
          rcases List.mem_append.mp h' with hh | hh
          · exact Or.inl hh
          · rw [List.mem_singleton] at hh
            exact Or.inr ⟨_, _, hh⟩
      · exact Or.inr h'

lemma build_options_mem {ss : Option Quote} {dq : List Quote} {b cs : ℚ}
    {cd : Option ℚ} {rt : Char} {o : ScoredOption}
    (h : o ∈ build_options ss dq b cs cd rt) :
    ∃ t q, o = score_candidate b cs cd t q := by
  rcases ss with _ | q
  · simp only [build_options] at h
    rcases build_fold_mem dq _ o h with h' | h'
    · simp at h'
    · exact h'
  · simp only [build_options] at h
    rcases build_fold_mem dq _ o h with h' | h'
    · split at h'
      · rw [List.mem_singleton] at h'
        exact ⟨_, _, h'⟩
      · simp at h'
    · exact h'

lemma add_delta_option_invariant {cs : ℚ} {cd : Option ℚ} {rt : Char} {b : ℚ}
    (acc : List ScoredOption) (q : Quote)
    (hpos : ∀ o ∈ acc, 0 < o.net_credit)
    (hpw : acc.Pairwise StrikeApart) :
    (∀ o ∈ add_delta_option cs cd rt b acc q, 0 < o.net_credit) ∧
    (add_delta_option cs cd rt b acc q).Pairwise StrikeApart := by
  rcases add_delta_option_cases cs cd rt b acc q with heq | ⟨heq, hsep, hnc⟩
  · rw [heq]
    exact ⟨hpos, hpw⟩
  · rw [heq]
    constructor
    · intro o ho
      rcases List.mem_append.mp ho with hh | hh
      · exact hpos o hh
      · rw [List.mem_singleton] at hh
        subst hh
        simpa [score_candidate] using hnc
    · rw [List.pairwise_append]
      refine ⟨hpw, by simp, ?_⟩
      intro a ha x hx
      rw [List.mem_singleton] at hx
      subst hx
      simpa [StrikeApart, score_candidate] using hsep a ha

lemma build_fold_invariant {cs : ℚ} {cd : Option ℚ} {rt : Char} {b : ℚ} :
    ∀ (l : List Quote) (acc : List ScoredOption),
      (∀ o ∈ acc, 0 < o.net_credit) → acc.Pairwise StrikeApart →
      (∀ o ∈ l.foldl (add_delta_option cs cd rt b) acc, 0 < o.net_credit) ∧
      (l.foldl (add_delta_option cs cd rt b) acc).Pairwise StrikeApart := by
  intro l
  induction l with
  | nil => intro acc h1 h2; exact ⟨h1, h2⟩
  | cons x xs ih =>
      intro acc h1 h2
      have h := @add_delta_option_invariant cs cd rt b acc x h1 h2
      exact ih _ h.1 h.2

lemma build_options_invariant (ss : Option Quote) (dq : List Quote)
    (b cs : ℚ) (cd : Option ℚ) (rt : Char) :
    (∀ o ∈ build_options ss dq b cs cd rt, 0 < o.net_credit) ∧
    (build_options ss dq b cs cd rt).Pairwise StrikeApart := by
  rcases ss with _ | q
  · simp only [build_options]
    exact build_fold_invariant dq [] (by simp) (by simp)
  · simp only [build_options]
    by_cases hq : 0 < q.mark - b
    · rw [if_pos hq]
      refine build_fold_invariant dq _ ?_ (by simp)
      intro o ho
      rw [List.mem_singleton] at ho
      subst ho
      simpa [score_candidate] using hq
    · rw [if_neg hq]
      exact build_fold_invariant dq [] (by simp) (by simp)

/-- C1: every scored roll candidate has net_credit = candidate mark minus
buyback cost; premium_efficiency = net_credit / candidate mark x 100 when
the candidate mark is positive and 0 otherwise; capital_roi =
net_credit / current strike x 100 when the current strike is positive and 0
otherwise (the denominator is the position's current strike, not the
candidate's); and annualized_roi = capital_roi x (365 / candidate dte) when
the candidate dte is positive and 0 otherwise. -/
theorem C1_candidate_scoring (pos : Position) (config : Config) (env : Env)
    (r : RollOk) (h : find_roll_options pos config env = RollResult.ok r)
    (o : ScoredOption) (ho : o ∈ r.options) :
    o.net_credit = o.data.mark - r.buyback_cost ∧
    o.premium_efficiency =
      (if 0 < o.data.mark then o.net_credit / o.data.mark * 100 else 0) ∧
    o.capital_roi =
      (if 0 < r.current_strike then o.net_credit / r.current_strike * 100
        else 0) ∧
    o.annualized_roi =
      (if 0 < o.data.dte then o.capital_roi * (365 / (o.data.dte : ℚ))
        else 0) := by
  obtain ⟨hm, hb, hcs, hopts⟩ := find_roll_options_ok h
  rw [hopts] at ho
  obtain ⟨t, q, rfl⟩ := build_options_mem ho
  rw [hb, hcs]
  refine ⟨rfl, ?_, rfl, rfl⟩
  by_cases h0 : 0 < q.mark
  · simp [score_candidate, h0, ne_of_gt h0]
  · simp [score_candidate, h0]

/-- Witness for C1 at the spec.md section 8 end-to-end scenario. -/
theorem C1_candidate_scoring_witness :
    find_roll_options exPos exConfig exEnv = RollResult.ok exOk ∧
    exScored.net_credit = exScored.data.mark - exOk.buyback_cost ∧
    exScored.premium_efficiency =
      (if 0 < exScored.data.mark then
          exScored.net_credit / exScored.data.mark * 100 else 0) ∧
    exScored.capital_roi =
      (if 0 < exOk.current_strike then
          exScored.net_credit / exOk.current_strike * 100 else 0) ∧
    exScored.annualized_roi =
      (if 0 < exScored.data.dte then
          exScored.capital_roi * (365 / (exScored.data.dte : ℚ)) else 0) := by
  have hEval : find_roll_options exPos exConfig exEnv = RollResult.ok exOk := by
    norm_num [find_roll_options, build_options, exPos, exConfig, exEnv,
      exQuote, exOk, exScored, PFloat.isInvalid, PFloat.valOf]
  have h := C1_candidate_scoring exPos exConfig exEnv exOk hEval exScored
    (by simp [exOk])
  exact ⟨hEval, h.1, h.2.1, h.2.2.1, h.2.2.2⟩

/-- C4: if the current DTE exceeds the alert threshold, `find_roll_options`
returns the absent result regardless of anything else; otherwise with an
absent/NaN current mark it returns `skip_expiring` when DTE is at most 2
and `missing_data` when DTE is larger. -/
theorem C4_dte_and_data_gates (pos : Position) (config : Config) (env : Env) :
    (config.dte_threshold_for_alert < pos.expiry - env.today →
        find_roll_options pos config env = RollResult.absent) ∧
    (pos.expiry - env.today ≤ config.dte_threshold_for_alert →
        pos.current_mark.isInvalid = true →
        find_roll_options pos config env =
          (if pos.expiry - env.today ≤ 2 then
              RollResult.err ErrKind.skip_expiring (pos.expiry - env.today)
            else
              RollResult.err ErrKind.missing_data (pos.expiry - env.today))) := by
  constructor
  · intro h
    simp [find_roll_options, h]
  · intro h1 h2
    simp [find_roll_options, not_lt.mpr h1, h2]

/-- Witness for C4: a NaN-marked position with DTE 1 yields
`skip_expiring`; with DTE 10 it yields `missing_data`. -/
theorem C4_dte_and_data_gates_witness :
    find_roll_options exPosNan1 exConfig exEnvEmpty =
      RollResult.err ErrKind.skip_expiring 1 ∧
    find_roll_options exPosNan10 exConfig exEnvEmpty =
      RollResult.err ErrKind.missing_data 10 := by
  constructor
  · have h := (C4_dte_and_data_gates exPosNan1 exConfig exEnvEmpty).2
      (by decide) (by decide)
    exact h.trans (by decide)
  · have h := (C4_dte_and_data_gates exPosNan10 exConfig exEnvEmpty).2
      (by decide) (by decide)
    exact h.trans (by decide)

/-- C2: a replacement expiry found but an empty candidate set makes the
pipeline report `no_options`, while a position whose DTE exceeds the alert
threshold is reported `not_ready`; the two outcomes are distinct
(`find_roll_options` returns the same Python `None` in both cases, and
`process_position` separates them by re-checking the DTE). -/
theorem C2_no_options_vs_not_ready (pos far : Position) (config : Config)
    (env envFar : Env)
    (h1 : pos.expiry - env.today ≤ config.dte_threshold_for_alert)
    (h2 : pos.current_mark.isInvalid = false)
    (h3 : env.next_expiry ≠ Option.none)
    (h4 : build_options env.same_strike_quote env.delta_quotes
        pos.current_mark.valOf pos.strike pos.current_delta pos.right = [])
    (h5 : config.dte_threshold_for_alert < far.expiry - envFar.today) :
    (process_position pos config env).1 = ProcKind.no_options ∧
    (process_position far config envFar).1 = ProcKind.not_ready ∧
    ProcKind.no_options ≠ ProcKind.not_ready := by
  have hfar : find_roll_options far config envFar = RollResult.absent := by
    simp [find_roll_options, h5]
  have hpos : find_roll_options pos config env = RollResult.absent := by
    rcases hne : env.next_expiry with _ | nx
    · exact absurd hne h3
    · simp [find_roll_options, not_lt.mpr h1, h2, hne, h4]
  refine ⟨?_, ?_, by decide⟩
  · simp [process_position, hpos, not_lt.mpr h1]
  · simp [process_position, hfar, h5]

/-- Witness for C2: the eligible position with an empty candidate set maps
to `no_options`; the same position 60 days out maps to `not_ready`. -/
theorem C2_no_options_vs_not_ready_witness :
    (process_position exPosEligible exConfig exEnvNoCand).1 =
      ProcKind.no_options ∧
    (process_position exPosFar exConfig exEnvNoCand).1 = ProcKind.not_ready ∧
    ProcKind.no_options ≠ ProcKind.not_ready :=
  C2_no_options_vs_not_ready exPosEligible exPosFar exConfig exEnvNoCand
    exEnvNoCand (by decide) (by decide) (by decide) (by rfl) (by decide)

/-- C7: every candidate in a returned list has strictly positive net
credit, and the strikes of any two candidates in the list are at least 1.0
apart. -/
theorem C7_candidate_list_invariants (pos : Position) (config : Config)
    (env : Env) (r : RollOk)
    (h : find_roll_options pos config env = RollResult.ok r) :
    (∀ o ∈ r.options, 0 < o.net_credit) ∧ r.options.Pairwise StrikeApart := by
  obtain ⟨hm, hb, hcs, hopts⟩ := find_roll_options_ok h
  rw [hopts]
  exact build_options_invariant env.same_strike_quote env.delta_quotes
    pos.current_mark.valOf pos.strike pos.current_delta pos.right

/-- Witness for C7 at the end-to-end scenario. -/
theorem C7_candidate_list_invariants_witness :
    find_roll_options exPos exConfig exEnv = RollResult.ok exOk ∧
    0 < exScored.net_credit ∧ exOk.options.Pairwise StrikeApart := by
  have hEval : find_roll_options exPos exConfig exEnv = RollResult.ok exOk := by
    norm_num [find_roll_options, build_options, exPos, exConfig, exEnv,
      exQuote, exOk, exScored, PFloat.isInvalid, PFloat.valOf]
  have h := C7_candidate_list_invariants exPos exConfig exEnv exOk hEval
  exact ⟨hEval, h.1 exScored (by simp [exOk]), h.2⟩

/-- C10: whenever `find_roll_options` reaches the scoring stage and returns
candidates, the current mark had already passed the data-quality gate, so
the zero-substituting buyback fallback never fires: the reported buyback
cost equals the current mark exactly and every candidate is scored against
it. -/
theorem C10_buyback_equals_current_mark (pos : Position) (config : Config)
    (env : Env) (r : RollOk)
    (h : find_roll_options pos config env = RollResult.ok r) :
    pos.current_mark.isInvalid = false ∧
    r.buyback_cost = pos.current_mark.valOf ∧
    ∀ o ∈ r.options, o.net_credit = o.data.mark - pos.current_mark.valOf := by
  obtain ⟨hm, hb, hcs, hopts⟩ := find_roll_options_ok h
  refine ⟨hm, hb, ?_⟩
  intro o ho
  rw [hopts] at ho
  obtain ⟨t, q, rfl⟩ := build_options_mem ho
  rfl

/-- Witness for C10 at the end-to-end scenario. -/
theorem C10_buyback_equals_current_mark_witness :
    find_roll_options exPos exConfig exEnv = RollResult.ok exOk ∧
    PFloat.isInvalid exPos.current_mark = false ∧
    exOk.buyback_cost = exPos.current_mark.valOf ∧
    exScored.net_credit = exScored.data.mark - exPos.current_mark.valOf := by
  have hEval : find_roll_options exPos exConfig exEnv = RollResult.ok exOk := by
    norm_num [find_roll_options, build_options, exPos, exConfig, exEnv,
      exQuote, exOk, exScored, PFloat.isInvalid, PFloat.valOf]
  have h := C10_buyback_equals_current_mark exPos exConfig exEnv exOk hEval
  exact ⟨hEval, h.1, h.2.1, h.2.2 exScored (by simp [exOk])⟩
